import Mathlib

/-!
Verification of the lichess-api-demo board client.

The development shallow-embeds the TypeScript sources:
  * the move display helper `uciToAlgebraic` and `getLastMove` (src/util.ts and
    the identical private method of `GameCtrl`),
  * the game synchronization engine `GameCtrl` (constructor, `onUpdate`,
    `handle`, `userMove`, `resign`),
  * the `VisualizationTrainer` (`setMode`, `cycleMode`, subscriber callbacks,
    memory timer bookkeeping).

JavaScript string operations (`split(' ')`, `substring`, `substr`,
`toUpperCase`) are embedded as executable Lean functions over `String` with
the same semantics on the ASCII inputs the client handles.  The chess rules
library (chessops) is an external black-box collaborator of the repository;
it is modelled from the spec as a `RulesEngine` parameter.  Side effects
(speech synthesis, HTTP commands, logging, chessground display calls) are
embedded as explicit effect lists returned by each operation.
-/

namespace LichessApiDemo

/-- The two sides, the string union of "white" and "black" in the source. -/
inductive Color where
  | white
  | black
deriving DecidableEq, Repr

/-- Embeds `opposite` from chessground/util: the other side. -/
def Color.opposite : Color → Color
  | .white => .black
  | .black => .white

/-- JavaScript `s.substring(a, b)`: the characters of `s` in positions
`[a, b)` (our call sites always have `a ≤ b`). -/
def jsSubstring (s : String) (a b : Nat) : String :=
  ((s.toList.drop a).take (b - a)).asString

/-- JavaScript `s.substring(a)`: the characters of `s` from position `a` on. -/
def jsSubstringFrom (s : String) (a : Nat) : String :=
  (s.toList.drop a).asString

/-- JavaScript `s.substr(start, len)`: `len` characters starting at `start`. -/
def jsSubstr (s : String) (start len : Nat) : String :=
  ((s.toList.drop start).take len).asString

/-- JavaScript `s.toUpperCase()` restricted to ASCII, which is all the client
feeds it (promotion letters `q r b n`). -/
def jsToUpper (s : String) : String :=
  (s.toList.map Char.toUpper).asString

/-- Embeds `uciToAlgebraic` from src/util.ts (the private `GameCtrl.uciToAlgebraic`
is character-for-character the same function): guard `!uci || uci.length < 4`
returns `""` (the empty string is falsy, so one length test covers both);
otherwise `from = uci.substring(0,2)`, `to = uci.substring(2,4)`,
`promotion = uci.length > 4 ? uci.substring(4) : ''`, result
`from + '-' + to` with `'=' + promotion.toUpperCase()` appended when the
promotion suffix is nonempty. -/
def uciToAlgebraic (uci : String) : String :=
  if uci.length < 4 then ""
  else
    let frm := jsSubstring uci 0 2
    let to_ := jsSubstring uci 2 4
    let promotion := if 4 < uci.length then jsSubstringFrom uci 4 else ""
    let mv := frm ++ "-" ++ to_
    if promotion ≠ "" then mv ++ "=" ++ jsToUpper promotion else mv

/-- The record returned by `getLastMove` in src/util.ts. -/
structure LastMoveInfo where
  uci : String
  algebraic : String
  color : Color
deriving DecidableEq, Repr

/-- Embeds `getLastMove` from src/util.ts: `null` on an empty list, otherwise the
last token, its display form, and `white` iff the list length is odd. -/
def getLastMove (moves : List String) : Option LastMoveInfo :=
  if moves.length = 0 then none
  else
    some { uci := moves.getLastD ""
           algebraic := uciToAlgebraic (moves.getLastD "")
           color := if moves.length % 2 = 1 then Color.white else Color.black }

/-- Helper for `jsSplitSpace`: walks the character list accumulating the
current chunk (in reverse), cutting at every space. -/
def splitSpacesAux : List Char → List Char → List String
  | [], acc => [acc.reverse.asString]
  | c :: rest, acc =>
    if c = ' ' then acc.reverse.asString :: splitSpacesAux rest []
    else splitSpacesAux rest (c :: acc)

/-- JavaScript `s.split(' ')`: split on every single space, keeping empty
chunks (so `""` yields `[""]` and `"a  b"` yields `["a", "", "b"]`). -/
def jsSplitSpace (s : String) : List String :=
  splitSpacesAux s.toList []

/-- The move tokenizer of `GameCtrl.onUpdate`:
`moves.split(' ').filter(m => m)` — split on spaces and drop empty strings
(the only falsy strings). -/
def tokenize (s : String) : List String :=
  (jsSplitSpace s).filter (fun m => m != "")

/-! ## The game synchronization engine (`GameCtrl`) -/

/-- A player as accessed by the engine (`game.black.id`). -/
structure Player where
  id : String
deriving DecidableEq, Repr

/-- The server-authoritative `state` slice of a game, replaced wholesale by
every `gameState` message. -/
structure GameState where
  moves : String
  status : String
  wtime : Nat
  btime : Nat
deriving DecidableEq, Repr

/-- The `Game` record, with the fields the engine reads: `id`, the two
players, `initialFen` and the mutable `state` slice. -/
structure Game where
  id : String
  white : Player
  black : Player
  initialFen : String
  state : GameState
deriving DecidableEq, Repr

/-- Modelled from the spec: the chess rules library (chessops) is an
external black-box collaborator — `defaultSetup`/`Chess.default`,
`parseFen(...)` with `Chess.fromSetup(...)`, `parseUci` with `Chess.play`,
and `chess.turn` are not part of this repository.  Per the spec (§4.1, §6)
position reconstruction "fails with IllegalMoveError if any token does not
parse as a move, or parses but is not legal in the position reached so far",
so `applyMove` returns `none` exactly on such tokens, and `fromFen` returns
`none` on an encoding the library rejects. -/
structure RulesEngine (Pos : Type) where
  defaultPos : Pos
  fromFen : String → Option Pos
  applyMove : Pos → String → Option Pos
  turn : Pos → Color

/-- Initial-position computation of `GameCtrl.onUpdate` line 48: when
`initialFen` equals "startpos" take `defaultSetup()`, otherwise
`parseFen(initialFen).unwrap()`, then `Chess.fromSetup(...)`; a failing
`unwrap` throws. -/
def initialPosOf {Pos : Type} (e : RulesEngine Pos) (fen : String) : Option Pos :=
  if fen = "startpos" then some e.defaultPos else e.fromFen fen

/-- The exceptions an update can raise: a rejected initial position encoding,
or a move token that fails to parse or fails legality during replay. -/
inductive UpdateError where
  | badFen
  | illegalMove
deriving DecidableEq, Repr

/-- The mutable fields of `GameCtrl` that the claims concern.  `ground` is
whether a chessground instance has been attached with `setGround` (the
source guards every display call with `this.ground?.`). -/
structure GameCtrlState (Pos : Type) where
  game : Game
  pov : Color
  chess : Pos
  lastMove : Option (String × String)
  lastMoveCount : Nat
  ground : Bool
deriving DecidableEq, Repr

/-- The observable side effects of the engine: text-to-speech for a move
(`speakMove`), chessground display calls, a redraw request, the
unknown-message log line, the cosmetic turn-color flip of `userMove`, and an
HTTP command to the remote endpoint. -/
inductive Effect where
  | speak (move : String) (color : Color)
  | groundSet
  | playPremove
  | redraw
  | logUnknown (msgType : String)
  | setTurnColor (c : Color)
  | httpPost (url : String)
deriving DecidableEq, Repr

/-- The replay loop of `onUpdate` line 62:
`moves.forEach(uci => this.chess.play(parseUci(uci)!))`.  `play` mutates the
position in place, and a token the rules engine rejects raises an exception
that aborts the loop, so the result is the position reached by the longest
legal prefix, paired with the error if one was raised (the remaining tokens
are not applied and none is skipped). -/
def replayMoves {Pos : Type} (e : RulesEngine Pos) :
    Pos → List String → Pos × Option UpdateError
  | p, [] => (p, none)
  | p, m :: rest =>
    match e.applyMove p m with
    | none => (p, some UpdateError.illegalMove)
    | some p2 => replayMoves e p2 rest

/-- Replay of a move list with no failure: `some` of the final position when
every token applies legally, `none` otherwise. -/
def replayAll {Pos : Type} (e : RulesEngine Pos) :
    Pos → List String → Option Pos
  | p, [] => some p
  | p, m :: rest =>
    match e.applyMove p m with
    | none => none
    | some p2 => replayAll e p2 rest

/-- The outcome of one `onUpdate`/`handle` call: the state after it (JS
mutations persist even when an exception is raised partway), the effects
emitted, and the exception, if any, that propagates to the caller. -/
structure UpdateResult (Pos : Type) where
  state : GameCtrlState Pos
  effects : List Effect
  error : Option UpdateError
deriving DecidableEq, Repr

/-- Embeds `GameCtrl.onUpdate` (lines 47–68).  In source order: build the initial
position (a bad FEN throws before anything else); tokenize
`game.state.moves`; if the count exceeds `lastMoveCount`, speak the last
token (color by parity of the count) and advance `lastMoveCount`; replay the
tokens, mutating `chess` in place — a rejected token raises after the legal
prefix is applied; on success set `lastMove` from the last token, push the
new config to chessground and play a queued premove when it is the local
player's turn. -/
def onUpdate {Pos : Type} (e : RulesEngine Pos) (s : GameCtrlState Pos) :
    UpdateResult Pos :=
  match initialPosOf e s.game.initialFen with
  | none => ⟨s, [], some UpdateError.badFen⟩
  | some p0 =>
    let moves := tokenize s.game.state.moves
    let n := moves.length
    let speakEff : List Effect :=
      if s.lastMoveCount < n then
        [Effect.speak (uciToAlgebraic (moves.getLastD ""))
          (if n % 2 = 1 then Color.white else Color.black)]
      else []
    let wm := if s.lastMoveCount < n then n else s.lastMoveCount
    match replayMoves e p0 moves with
    | (p, some er) =>
      ⟨{ s with chess := p, lastMoveCount := wm }, speakEff, some er⟩
    | (p, none) =>
      let lm := (moves.getLast?).map (fun t => (jsSubstr t 0 2, jsSubstr t 2 2))
      let groundEff :=
        (if s.ground then [Effect.groundSet] else []) ++
        (if e.turn p = s.pov then
          (if s.ground then [Effect.playPremove] else []) else [])
      ⟨{ s with chess := p, lastMoveCount := wm, lastMove := lm },
        speakEff ++ groundEff, none⟩

/-- The stream messages `GameCtrl.handle` dispatches on: `gameFull` carries
the entire game record, `gameState` only the state slice, and any other
`msg.type` falls to the default case. -/
inductive Msg where
  | gameFull (g : Game)
  | gameState (st : GameState)
  | other (t : String)
deriving DecidableEq, Repr

/-- Embeds `GameCtrl.handle` (lines 144–159): `gameFull` replaces `this.game` and
runs `onUpdate` then `root.redraw()`; `gameState` replaces `this.game.state`
and does the same; any other type is logged with `console.error` and nothing
else happens.  A `redraw` is emitted only when `onUpdate` did not throw. -/
def handle {Pos : Type} (e : RulesEngine Pos) (s : GameCtrlState Pos)
    (m : Msg) : UpdateResult Pos :=
  match m with
  | .gameFull g =>
    let r := onUpdate e { s with game := g }
    match r.error with
    | some _ => r
    | none => { r with effects := r.effects ++ [Effect.redraw] }
  | .gameState st =>
    let r := onUpdate e { s with game := { s.game with state := st } }
    match r.error with
    | some _ => r
    | none => { r with effects := r.effects ++ [Effect.redraw] }
  | .other t => ⟨s, [Effect.logUnknown t], none⟩

/-- The `GameCtrl` constructor (lines 30–40): store the game, derive the
point of view by comparing `game.black.id` against the session identity
`root.auth.me?.id` (`me` absent compares unequal to a string id), initialize
`chess` to the default position (field initializer line 23), `lastMoveCount`
to `0` (line 28) and no chessground, then run `onUpdate`. -/
def mkGameCtrl {Pos : Type} (e : RulesEngine Pos) (g : Game)
    (me : Option String) : UpdateResult Pos :=
  let pov := if me = some g.black.id then Color.black else Color.white
  onUpdate e
    { game := g, pov := pov, chess := e.defaultPos, lastMove := none,
      lastMoveCount := 0, ground := false }

/-- Embeds `GameCtrl.userMove` (lines 72–75): flip the displayed turn color on the
chessground instance (optional chaining: a no-op without one) and POST the
move to `/api/board/game/{gameId}/move/{orig}{dest}`; no field of the
controller is written. -/
def userMove {Pos : Type} (s : GameCtrlState Pos) (orig dest : String) :
    GameCtrlState Pos × List Effect :=
  (s,
    (if s.ground then [Effect.setTurnColor s.pov.opposite] else []) ++
    [Effect.httpPost
      ("/api/board/game/" ++ s.game.id ++ "/move/" ++ orig ++ dest)])

/-- Embeds `GameCtrl.resign` (lines 77–79): POST to
`/api/board/game/{gameId}/resign`; no field of the controller is written. -/
def resign {Pos : Type} (s : GameCtrlState Pos) :
    GameCtrlState Pos × List Effect :=
  (s, [Effect.httpPost ("/api/board/game/" ++ s.game.id ++ "/resign")])

/-! ## The visualization trainer (`VisualizationTrainer`) -/

/-- The seven visualization modes, in declaration order of the source type
union. -/
inductive VisualizationMode where
  | standard
  | minimal
  | checkers
  | monochrome
  | invisible
  | memory
  | blindfold
deriving DecidableEq, Repr

/-- The `VisualizationSettings` record.  `memoryTime` is an optional number
of milliseconds; JavaScript truthiness makes both `undefined` and `0`
falsy. -/
structure VisualizationSettings where
  mode : VisualizationMode
  showMoves : Bool
  showTargets : Bool
  memoryTime : Option Nat
deriving DecidableEq, Repr

/-- JavaScript truthiness of an optional number: `undefined` and `0` are
falsy, everything else truthy. -/
def jsTruthyOptNat : Option Nat → Bool
  | none => false
  | some n => n != 0

/-- The mutable fields of the trainer: current mode, settings, the
subscribed callbacks (opaque handles, in subscription order, duplicates
possible) and whether a memory timer is pending. -/
structure TrainerState where
  currentMode : VisualizationMode
  settings : VisualizationSettings
  callbacks : List Nat
  memoryTimer : Bool
deriving DecidableEq, Repr

/-- Observable side effects of the trainer: a callback invocation with the
settings snapshot passed to it, `clearTimeout`, `setTimeout`, and the DOM
class rewrite of `updateBoardMode`. -/
inductive TrainerEvent where
  | notify (cb : Nat) (st : VisualizationSettings)
  | clearTimer
  | startTimer
  | updateBoard
deriving DecidableEq, Repr

/-- Embeds `clearMemoryTimer`: if a timer is pending, `clearTimeout` it and forget
the handle; otherwise do nothing. -/
def clearMemoryTimer (s : TrainerState) : TrainerState × List TrainerEvent :=
  if s.memoryTimer then
    ({ s with memoryTimer := false }, [TrainerEvent.clearTimer])
  else (s, [])

/-- Embeds `startMemoryTimer`: if `settings.memoryTime` is truthy, `setTimeout` a
new timer; otherwise do nothing. -/
def startMemoryTimer (s : TrainerState) : TrainerState × List TrainerEvent :=
  if jsTruthyOptNat s.settings.memoryTime then
    ({ s with memoryTimer := true }, [TrainerEvent.startTimer])
  else (s, [])

/-- Embeds `notifyListeners`: `this.callbacks.forEach(cb => cb(this.getSettings()))`
— every subscribed callback is invoked once, in order, with a copy of the
current settings. -/
def notifyEvents (s : TrainerState) : List TrainerEvent :=
  s.callbacks.map (fun cb => TrainerEvent.notify cb s.settings)

/-- Embeds `VisualizationTrainer.setMode` (lines 58–71): when the requested mode
differs from the current one, set `currentMode` and `settings.mode`, clear
any memory timer, notify the listeners, rewrite the board classes, and —
for `memory` mode with a truthy `memoryTime` — start the memory timer.
When the requested mode is already current, nothing at all happens. -/
def setMode (s : TrainerState) (mode : VisualizationMode) :
    TrainerState × List TrainerEvent :=
  if s.currentMode ≠ mode then
    let s1 := { s with currentMode := mode,
                       settings := { s.settings with mode := mode } }
    let r2 := clearMemoryTimer s1
    let ev3 := notifyEvents r2.1
    let r4 :=
      if mode = VisualizationMode.memory then
        if jsTruthyOptNat r2.1.settings.memoryTime then startMemoryTimer r2.1
        else (r2.1, [])
      else (r2.1, [])
    (r4.1, r2.2 ++ ev3 ++ [TrainerEvent.updateBoard] ++ r4.2)
  else (s, [])

/-- The fixed cycling order of `cycleMode` (line 74). -/
def modesInOrder : List VisualizationMode :=
  [.standard, .minimal, .checkers, .monochrome, .invisible, .memory,
   .blindfold]

/-- Embeds `VisualizationTrainer.cycleMode` (lines 73–78): find the current mode in
the fixed list, advance to the next index modulo 7, and `setMode` it. -/
def cycleMode (s : TrainerState) : TrainerState × List TrainerEvent :=
  let currentIndex := modesInOrder.indexOf s.currentMode
  let nextIndex := (currentIndex + 1) % modesInOrder.length
  setMode s (modesInOrder.getD nextIndex VisualizationMode.standard)

/-- The state after one `cycleMode` call (the projection the period-7
property is about). -/
def cycleState (s : TrainerState) : TrainerState :=
  (cycleMode s).1

/-! ## Helper notions used by the theorem statements -/

/-- A concrete rules engine used to instantiate the parameterized engine
theorems on executable inputs: a position is the list of moves applied so
far, the token `"xx"` is rejected as illegal, and the FEN `"badfen"` is
rejected.  (Any `RulesEngine` works in the theorems; this one makes the
witnesses computable.) -/
def listEngine : RulesEngine (List String) where
  defaultPos := []
  fromFen := fun f => if f = "badfen" then none else some [f]
  applyMove := fun p m => if m = "xx" then none else some (p ++ [m])
  turn := fun p => if p.length % 2 = 0 then Color.white else Color.black

/-- The side the engine attributes to the newest move: white iff the move
count is odd (line 56 of the engine; the same parity test appears in
`getLastMove`). -/
def parityColor (n : Nat) : Color :=
  if n % 2 = 1 then Color.white else Color.black

/-- Modelled from the spec: in the actual game the sides alternate starting
from the initial position's side to move, so the `k`-th move of the history
is played by the first mover when `k` is odd.  (Which side actually plays a
given move is rules-engine knowledge, not computed anywhere in the
repository.) -/
def actualSideOfMove (firstMover : Color) (k : Nat) : Color :=
  if k % 2 = 1 then firstMover else firstMover.opposite

/-- Recognizes a speech notification among the engine's effects. -/
def isSpeak : Effect → Bool
  | .speak _ _ => true
  | _ => false

/-- Recognizes an HTTP command among the engine's effects. -/
def isHttpPost : Effect → Bool
  | .httpPost _ => true
  | _ => false

/-- Recognizes a callback invocation among the trainer's events. -/
def isNotify : TrainerEvent → Bool
  | .notify _ _ => true
  | _ => false

/-- The successor of a mode in the fixed cycling order, as the claim lists
it: standard → minimal → checkers → monochrome → invisible → memory →
blindfold → standard. -/
def modeSucc : VisualizationMode → VisualizationMode
  | .standard => .minimal
  | .minimal => .checkers
  | .checkers => .monochrome
  | .monochrome => .invisible
  | .invisible => .memory
  | .memory => .blindfold
  | .blindfold => .standard

/-- Modelled from the spec: a well-formed 4–5 character move token — origin
square, destination square, optional promotion marker (spec §4.2 and
glossary).  Used only to state what "malformed" means in the display-helper
claim. -/
def wellFormedUciToken (s : String) : Bool :=
  match s.toList with
  | [f1, r1, f2, r2] =>
    ('a' ≤ f1 && f1 ≤ 'h') && ('1' ≤ r1 && r1 ≤ '8') &&
    ('a' ≤ f2 && f2 ≤ 'h') && ('1' ≤ r2 && r2 ≤ '8')
  | [f1, r1, f2, r2, p] =>
    ('a' ≤ f1 && f1 ≤ 'h') && ('1' ≤ r1 && r1 ≤ '8') &&
    ('a' ≤ f2 && f2 ≤ 'h') && ('1' ≤ r2 && r2 ≤ '8') &&
    (p = 'q' || p = 'r' || p = 'b' || p = 'n')
  | _ => false

/-- A concrete opened game shared by the executable counterexamples and
witnesses: standard initial position, history `"e2e4 e7e5"`. -/
def exGame : Game where
  id := "abc123"
  white := { id := "alice" }
  black := { id := "bob" }
  initialFen := "startpos"
  state := { moves := "e2e4 e7e5", status := "started",
             wtime := 60000, btime := 60000 }

/-- The engine state after opening `exGame` as the white player. -/
def exOpened : GameCtrlState (List String) :=
  (mkGameCtrl listEngine exGame (some "alice")).state

/-- An incremental-state message whose moves list is strictly shorter than
the two moves already processed for `exGame`. -/
def exShorter : GameState where
  moves := "e2e4"
  status := "started"
  wtime := 59000
  btime := 60000

/-- An incremental-state message whose third token the rules engine
rejects. -/
def exIllegal : GameState where
  moves := "e2e4 e7e5 xx g1f3"
  status := "started"
  wtime := 59000
  btime := 60000

/-- The engine state the constructor builds for `exGame` just before its
initial `onUpdate` call (white point of view, default position, watermark
zero, no chessground attached). -/
def exFresh : GameCtrlState (List String) where
  game := exGame
  pov := Color.white
  chess := []
  lastMove := none
  lastMoveCount := 0
  ground := false

/-- A concrete trainer state used by the trainer witnesses: standard mode,
two subscribed callbacks, no pending timer. -/
def exTrainer : TrainerState where
  currentMode := VisualizationMode.standard
  settings := { mode := VisualizationMode.standard, showMoves := true,
                showTargets := true, memoryTime := some 5000 }
  callbacks := [0, 1]
  memoryTimer := false

/-! ## Supporting lemmas -/

/-- Replay of a fully legal move list yields the final position and no
error. -/
theorem replayMoves_of_replayAll {Pos : Type} (e : RulesEngine Pos) :
    ∀ (ms : List String) (p q : Pos), replayAll e p ms = some q →
      replayMoves e p ms = (q, none) := by
  intro ms
  induction ms with
  | nil =>
    intro p q h
    simp [replayAll] at h
    simp [replayMoves, h]
  | cons m rest ih =>
    intro p q h
    simp only [replayAll] at h
    simp only [replayMoves]
    cases hap : e.applyMove p m with
    | none => rw [hap] at h; simp at h
    | some p2 => rw [hap] at h; simpa using ih p2 q h

/-- Replay stops at the first rejected token: the position reached is the
one after the legal prefix, the error is raised, and the remaining tokens
are not applied. -/
theorem replayMoves_stops {Pos : Type} (e : RulesEngine Pos) :
    ∀ (ms1 : List String) (p q : Pos) (bad : String) (ms2 : List String),
      replayAll e p ms1 = some q → e.applyMove q bad = none →
      replayMoves e p (ms1 ++ bad :: ms2) = (q, some UpdateError.illegalMove) := by
  intro ms1
  induction ms1 with
  | nil =>
    intro p q bad ms2 hpre hbad
    simp [replayAll] at hpre
    subst hpre
    simp [replayMoves, hbad]
  | cons m rest ih =>
    intro p q bad ms2 hpre hbad
    simp only [replayAll] at hpre
    cases hap : e.applyMove p m with
    | none => rw [hap] at hpre; simp at hpre
    | some p2 =>
      rw [hap] at hpre
      simp only [List.cons_append, replayMoves, hap]
      exact ih p2 q bad ms2 (by simpa using hpre) hbad

/-- An `onUpdate` call never changes `game`, `pov` or `ground`. -/
theorem onUpdate_frame {Pos : Type} (e : RulesEngine Pos)
    (s : GameCtrlState Pos) :
    (onUpdate e s).state.game = s.game ∧ (onUpdate e s).state.pov = s.pov ∧
      (onUpdate e s).state.ground = s.ground := by
  unfold onUpdate
  cases initialPosOf e s.game.initialFen with
  | none => exact ⟨rfl, rfl, rfl⟩
  | some p0 =>
    dsimp only
    rcases replayMoves e p0 (tokenize s.game.state.moves) with ⟨p, er⟩
    cases er <;> exact ⟨rfl, rfl, rfl⟩

/-- When the initial position is accepted, `onUpdate` raises exactly the
error of the replay. -/
theorem onUpdate_error {Pos : Type} (e : RulesEngine Pos)
    (s : GameCtrlState Pos) (p0 : Pos)
    (hfen : initialPosOf e s.game.initialFen = some p0) :
    (onUpdate e s).error =
      (replayMoves e p0 (tokenize s.game.state.moves)).2 := by
  unfold onUpdate
  rw [hfen]
  dsimp only
  rcases replayMoves e p0 (tokenize s.game.state.moves) with ⟨p, er⟩
  cases er <;> rfl

/-- When the initial position is accepted, the position `onUpdate` leaves in
`chess` is exactly the one the replay reached. -/
theorem onUpdate_chess {Pos : Type} (e : RulesEngine Pos)
    (s : GameCtrlState Pos) (p0 : Pos)
    (hfen : initialPosOf e s.game.initialFen = some p0) :
    (onUpdate e s).state.chess =
      (replayMoves e p0 (tokenize s.game.state.moves)).1 := by
  unfold onUpdate
  rw [hfen]
  dsimp only
  rcases replayMoves e p0 (tokenize s.game.state.moves) with ⟨p, er⟩
  cases er <;> rfl

/-- When the initial position is accepted, the watermark after `onUpdate` is
the move count if it grew and is otherwise unchanged. -/
theorem onUpdate_watermark {Pos : Type} (e : RulesEngine Pos)
    (s : GameCtrlState Pos) (p0 : Pos)
    (hfen : initialPosOf e s.game.initialFen = some p0) :
    (onUpdate e s).state.lastMoveCount =
      if s.lastMoveCount < (tokenize s.game.state.moves).length then
        (tokenize s.game.state.moves).length
      else s.lastMoveCount := by
  unfold onUpdate
  rw [hfen]
  dsimp only
  rcases replayMoves e p0 (tokenize s.game.state.moves) with ⟨p, er⟩
  cases er <;> rfl

/-- The watermark never decreases across an `onUpdate`. -/
theorem onUpdate_watermark_mono {Pos : Type} (e : RulesEngine Pos)
    (s : GameCtrlState Pos) :
    s.lastMoveCount ≤ (onUpdate e s).state.lastMoveCount := by
  cases hfen : initialPosOf e s.game.initialFen with
  | none => unfold onUpdate; rw [hfen]
  | some p0 =>
    rw [onUpdate_watermark e s p0 hfen]
    split
    · omega
    · exact Nat.le_refl _

/-- When the initial position is accepted, the speech notifications of an
`onUpdate`: exactly one — the last token, side by parity — when the move
count grew, none otherwise. -/
theorem onUpdate_speak {Pos : Type} (e : RulesEngine Pos)
    (s : GameCtrlState Pos) (p0 : Pos)
    (hfen : initialPosOf e s.game.initialFen = some p0) :
    (onUpdate e s).effects.filter isSpeak =
      if s.lastMoveCount < (tokenize s.game.state.moves).length then
        [Effect.speak
          (uciToAlgebraic ((tokenize s.game.state.moves).getLastD ""))
          (parityColor (tokenize s.game.state.moves).length)]
      else [] := by
  unfold onUpdate
  rw [hfen]
  dsimp only
  rcases replayMoves e p0 (tokenize s.game.state.moves) with ⟨p, er⟩
  cases er with
  | some er =>
    dsimp only
    by_cases hlt : s.lastMoveCount < (tokenize s.game.state.moves).length <;>
      simp [hlt, isSpeak, parityColor]
  | none =>
    dsimp only
    by_cases hlt : s.lastMoveCount < (tokenize s.game.state.moves).length <;>
      by_cases hg : s.ground <;>
        by_cases ht : e.turn p = s.pov <;>
          simp [hlt, hg, ht, isSpeak, parityColor, List.filter_append]

/-- The state `handle` leaves behind for a `gameState` message is the one
`onUpdate` computes on the state with the new slice installed. -/
theorem handle_gameState_state {Pos : Type} (e : RulesEngine Pos)
    (s : GameCtrlState Pos) (st : GameState) :
    (handle e s (Msg.gameState st)).state =
      (onUpdate e { s with game := { s.game with state := st } }).state := by
  unfold handle
  dsimp only
  rcases onUpdate e { s with game := { s.game with state := st } } with ⟨s2, eff, er⟩
  cases er <;> rfl

/-- The error `handle` surfaces for a `gameState` message is the one
`onUpdate` raised. -/
theorem handle_gameState_error {Pos : Type} (e : RulesEngine Pos)
    (s : GameCtrlState Pos) (st : GameState) :
    (handle e s (Msg.gameState st)).error =
      (onUpdate e { s with game := { s.game with state := st } }).error := by
  unfold handle
  dsimp only
  rcases onUpdate e { s with game := { s.game with state := st } } with ⟨s2, eff, er⟩
  cases er <;> rfl

/-- The state `handle` leaves behind for a `gameFull` message is the one
`onUpdate` computes on the state with the new game installed. -/
theorem handle_gameFull_state {Pos : Type} (e : RulesEngine Pos)
    (s : GameCtrlState Pos) (g : Game) :
    (handle e s (Msg.gameFull g)).state =
      (onUpdate e { s with game := g }).state := by
  unfold handle
  dsimp only
  rcases onUpdate e { s with game := g } with ⟨s2, eff, er⟩
  cases er <;> rfl

/-- A string containing a hyphen between two others is never empty. -/
theorem append_dash_ne_empty (u v : String) : u ++ "-" ++ v ≠ "" := by
  intro h
  have hl := congrArg String.length h
  simp only [String.length_append] at hl
  rw [show ("-" : String).length = 1 from rfl,
    show ("" : String).length = 0 from rfl] at hl
  omega

/-- A string containing an equals sign between two others is never empty. -/
theorem append_equals_ne_empty (u v : String) : u ++ "=" ++ v ≠ "" := by
  intro h
  have hl := congrArg String.length h
  simp only [String.length_append] at hl
  rw [show ("=" : String).length = 1 from rfl,
    show ("" : String).length = 0 from rfl] at hl
  omega

/-- For an input of at least four characters the display helper never
returns the empty string: the result always contains the hyphen. -/
theorem uciToAlgebraic_ne_empty (s : String) (h4 : 4 ≤ s.length) :
    uciToAlgebraic s ≠ "" := by
  unfold uciToAlgebraic
  rw [if_neg (by omega)]
  dsimp only
  split <;> split <;>
    first
      | exact append_equals_ne_empty _ _
      | exact append_dash_ne_empty _ _

/-- A `clearMemoryTimer` call touches only the timer flag. -/
theorem clearMemoryTimer_frame (s : TrainerState) :
    (clearMemoryTimer s).1.currentMode = s.currentMode ∧
      (clearMemoryTimer s).1.settings = s.settings ∧
      (clearMemoryTimer s).1.callbacks = s.callbacks := by
  unfold clearMemoryTimer
  split <;> exact ⟨rfl, rfl, rfl⟩

/-- A `startMemoryTimer` call touches only the timer flag. -/
theorem startMemoryTimer_frame (s : TrainerState) :
    (startMemoryTimer s).1.currentMode = s.currentMode ∧
      (startMemoryTimer s).1.settings = s.settings ∧
      (startMemoryTimer s).1.callbacks = s.callbacks := by
  unfold startMemoryTimer
  split <;> exact ⟨rfl, rfl, rfl⟩

/-- After a mode change request for a fresh mode, the current mode is the
requested one. -/
theorem setMode_mode (s : TrainerState) (m : VisualizationMode)
    (h : s.currentMode ≠ m) : (setMode s m).1.currentMode = m := by
  unfold setMode
  rw [if_pos h]
  dsimp only
  split
  · split
    · rw [(startMemoryTimer_frame _).1, (clearMemoryTimer_frame _).1]
    · rw [(clearMemoryTimer_frame _).1]
  · rw [(clearMemoryTimer_frame _).1]

/-- After a mode change request for a fresh mode, the settings carry the
requested mode. -/
theorem setMode_settings_mode (s : TrainerState) (m : VisualizationMode)
    (h : s.currentMode ≠ m) : (setMode s m).1.settings.mode = m := by
  unfold setMode
  rw [if_pos h]
  dsimp only
  split
  · split
    · rw [(startMemoryTimer_frame _).2.1, (clearMemoryTimer_frame _).2.1]
    · rw [(clearMemoryTimer_frame _).2.1]
  · rw [(clearMemoryTimer_frame _).2.1]

/-- Filtering the callback invocations out of a notification batch returns
the batch itself. -/
theorem filter_isNotify_map (l : List Nat) (st : VisualizationSettings) :
    (l.map (fun cb => TrainerEvent.notify cb st)).filter isNotify =
      l.map (fun cb => TrainerEvent.notify cb st) := by
  induction l with
  | nil => rfl
  | cons a t ih => simp [isNotify, ih]

/-- Each callback handle occurs in a notification batch exactly as often as
it is subscribed. -/
theorem count_notify_map (l : List Nat) (st : VisualizationSettings)
    (cb : Nat) :
    (l.map (fun c => TrainerEvent.notify c st)).count
        (TrainerEvent.notify cb st) = l.count cb := by
  induction l with
  | nil => rfl
  | cons a t ih =>
    simp only [List.map_cons, List.count_cons, ih]
    by_cases h : a = cb <;> simp [h]

/-- The notification events of a mode change are exactly one callback
invocation per subscriber, carrying the updated settings. -/
theorem setMode_notifications (s : TrainerState) (m : VisualizationMode)
    (h : s.currentMode ≠ m) :
    (setMode s m).2.filter isNotify =
      s.callbacks.map
        (fun cb => TrainerEvent.notify cb { s.settings with mode := m }) := by
  unfold setMode
  rw [if_pos h]
  dsimp only
  unfold clearMemoryTimer startMemoryTimer notifyEvents
  by_cases hmt : s.memoryTimer <;>
    by_cases hm : m = VisualizationMode.memory <;>
      simp [hmt, hm, isNotify, List.filter_append, filter_isNotify_map] <;>
        split <;>
          simp [isNotify, List.filter_append, filter_isNotify_map]

/-- One `cycleMode` call advances the current mode to its successor in the
fixed order. -/
theorem cycleState_mode (s : TrainerState) :
    (cycleState s).currentMode = modeSucc s.currentMode := by
  obtain ⟨cm, st, cb, mt⟩ := s
  cases cm with
  | standard =>
    show (setMode ⟨VisualizationMode.standard, st, cb, mt⟩
        VisualizationMode.minimal).1.currentMode = VisualizationMode.minimal
    exact setMode_mode _ _ (fun h => nomatch h)
  | minimal =>
    show (setMode ⟨VisualizationMode.minimal, st, cb, mt⟩
        VisualizationMode.checkers).1.currentMode = VisualizationMode.checkers
    exact setMode_mode _ _ (fun h => nomatch h)
  | checkers =>
    show (setMode ⟨VisualizationMode.checkers, st, cb, mt⟩
        VisualizationMode.monochrome).1.currentMode =
      VisualizationMode.monochrome
    exact setMode_mode _ _ (fun h => nomatch h)
  | monochrome =>
    show (setMode ⟨VisualizationMode.monochrome, st, cb, mt⟩
        VisualizationMode.invisible).1.currentMode =
      VisualizationMode.invisible
    exact setMode_mode _ _ (fun h => nomatch h)
  | invisible =>
    show (setMode ⟨VisualizationMode.invisible, st, cb, mt⟩
        VisualizationMode.memory).1.currentMode = VisualizationMode.memory
    exact setMode_mode _ _ (fun h => nomatch h)
  | memory =>
    show (setMode ⟨VisualizationMode.memory, st, cb, mt⟩
        VisualizationMode.blindfold).1.currentMode =
      VisualizationMode.blindfold
    exact setMode_mode _ _ (fun h => nomatch h)
  | blindfold =>
    have harg : modesInOrder.getD
        ((modesInOrder.indexOf VisualizationMode.blindfold + 1) %
          modesInOrder.length) VisualizationMode.standard =
        VisualizationMode.standard := by decide
    unfold cycleState cycleMode
    dsimp only [modeSucc]
    rw [harg]
    exact setMode_mode _ _ (fun h => nomatch h)

/-- Iterating `cycleMode` iterates the successor on the current mode. -/
theorem cycleState_iterate_mode (k : Nat) (s : TrainerState) :
    (cycleState^[k] s).currentMode = modeSucc^[k] s.currentMode := by
  induction k generalizing s with
  | zero => rfl
  | succ k ih =>
    rw [Function.iterate_succ_apply, Function.iterate_succ_apply,
      ih (cycleState s), cycleState_mode]

/-! ## Claim theorems -/

/-- Claim C1: when the engine processes a state update whose moves list
contains a token the rules engine rejects — one that does not parse as a
move, or parses but is not legal in the position reached so far —
reconstruction fails with a reconstruction error surfaced to the caller of
`handle`, and the position the engine holds is exactly the one reached
before the bad token: it never adopts a position obtained by skipping the
bad token or by applying the illegal move. -/
theorem c1_illegal_move_rejected {Pos : Type} (e : RulesEngine Pos)
    (s : GameCtrlState Pos) (st : GameState) (ms1 ms2 : List String)
    (bad : String) (p0 q : Pos)
    (hfen : initialPosOf e s.game.initialFen = some p0)
    (htok : tokenize st.moves = ms1 ++ bad :: ms2)
    (hpre : replayAll e p0 ms1 = some q)
    (hbad : e.applyMove q bad = none) :
    (handle e s (Msg.gameState st)).error = some UpdateError.illegalMove ∧
      (handle e s (Msg.gameState st)).state.chess = q := by
  have hrep : replayMoves e p0 (tokenize st.moves) =
      (q, some UpdateError.illegalMove) := by
    rw [htok]
    exact replayMoves_stops e ms1 p0 q bad ms2 hpre hbad
  constructor
  · rw [handle_gameState_error,
      onUpdate_error e { s with game := { s.game with state := st } } p0 hfen]
    dsimp only
    rw [hrep]
  · rw [handle_gameState_state,
      onUpdate_chess e { s with game := { s.game with state := st } } p0 hfen]
    dsimp only
    rw [hrep]

/-- Witness for C1 on a concrete run: after opening `exGame`, an
incremental-state message `"e2e4 e7e5 xx g1f3"` whose token `"xx"` the
rules engine rejects surfaces the reconstruction error, and the engine's
position is the one reached after the legal prefix. -/
theorem c1_witness :
    (handle listEngine exOpened (Msg.gameState exIllegal)).error =
        some UpdateError.illegalMove ∧
      (handle listEngine exOpened (Msg.gameState exIllegal)).state.chess =
        ["e2e4", "e7e5"] :=
  c1_illegal_move_rejected listEngine exOpened exIllegal ["e2e4", "e7e5"]
    ["g1f3"] "xx" [] ["e2e4", "e7e5"] (by decide) (by decide) (by decide)
    (by decide)

/-- Counterexample for C2: after the engine has processed the two-move
history of `exGame`, an incremental-state message with only one move is
accepted wholesale — no error is raised, the only effect is the redraw
request, and the shorter slice becomes the authoritative state. -/
theorem c2_counterexample :
    (tokenize exOpened.game.state.moves).length = 2 ∧
      (tokenize exShorter.moves).length = 1 ∧
      (handle listEngine exOpened (Msg.gameState exShorter)).error = none ∧
      (handle listEngine exOpened
          (Msg.gameState exShorter)).state.game.state = exShorter ∧
      (handle listEngine exOpened (Msg.gameState exShorter)).effects =
        [Effect.redraw] := by
  decide

/-- Claim C2 as amended: the engine performs no monotonicity check — an
incremental-state message whose moves list is strictly shorter than the one
already processed is silently accepted as the new authoritative state
(no error), provided only that its own content replays cleanly. -/
theorem c2_shorter_accepted {Pos : Type} (e : RulesEngine Pos)
    (s : GameCtrlState Pos) (st : GameState) (p0 p : Pos)
    (_hshorter : (tokenize st.moves).length <
      (tokenize s.game.state.moves).length)
    (hfen : initialPosOf e s.game.initialFen = some p0)
    (hrep : replayMoves e p0 (tokenize st.moves) = (p, none)) :
    (handle e s (Msg.gameState st)).error = none ∧
      (handle e s (Msg.gameState st)).state.game.state = st := by
  constructor
  · rw [handle_gameState_error,
      onUpdate_error e { s with game := { s.game with state := st } } p0 hfen]
    dsimp only
    rw [hrep]
  · rw [handle_gameState_state,
      (onUpdate_frame e { s with game := { s.game with state := st } }).1]

/-- Witness for C2's amended claim at the concrete shorter message. -/
theorem c2_witness :
    (handle listEngine exOpened (Msg.gameState exShorter)).error = none ∧
      (handle listEngine exOpened
          (Msg.gameState exShorter)).state.game.state = exShorter :=
  c2_shorter_accepted listEngine exOpened exShorter [] ["e2e4"] (by decide)
    (by decide) (by decide)

/-- Counterexample for C3: opening a game whose history already holds
`"e2e4 e7e5"` fires a speech notification — for `"e7e5"`, a move already in
the history — contradicting that no notable-move notification fires for
moves already in the history. -/
theorem c3_counterexample :
    tokenize exGame.state.moves = ["e2e4", "e7e5"] ∧
      (mkGameCtrl listEngine exGame (some "alice")).effects.filter isSpeak =
        [Effect.speak "e7-e5" Color.black] := by
  decide

/-- Claim C3 as amended: on game open the watermark is seeded to the current
move count, and the watermark never decreases across updates; however, when
the initial history is non-empty the open itself fires exactly one
notable-move notification — for the last move of the history — rather than
none (and rather than one per historical move). -/
theorem c3_watermark_seeded {Pos : Type} (e : RulesEngine Pos) (g : Game)
    (me : Option String) (p0 : Pos)
    (hfen : initialPosOf e g.initialFen = some p0) :
    (mkGameCtrl e g me).state.lastMoveCount =
        (tokenize g.state.moves).length ∧
      ((mkGameCtrl e g me).effects.filter isSpeak =
        if (tokenize g.state.moves).length = 0 then []
        else [Effect.speak
          (uciToAlgebraic ((tokenize g.state.moves).getLastD ""))
          (parityColor (tokenize g.state.moves).length)]) ∧
      ∀ (s : GameCtrlState Pos) (m : Msg),
        s.lastMoveCount ≤ (handle e s m).state.lastMoveCount := by
  unfold mkGameCtrl
  dsimp only
  refine ⟨?_, ?_, ?_⟩
  · rw [onUpdate_watermark e _ p0 hfen]
    dsimp only
    split <;> omega
  · rw [onUpdate_speak e _ p0 hfen]
    dsimp only
    by_cases h0 : (tokenize g.state.moves).length = 0 <;>
      simp [h0, Nat.pos_of_ne_zero]
  · intro s m
    cases m with
    | gameFull g2 =>
      rw [handle_gameFull_state]
      exact onUpdate_watermark_mono e { s with game := g2 }
    | gameState st =>
      rw [handle_gameState_state]
      exact onUpdate_watermark_mono e
        { s with game := { s.game with state := st } }
    | other t => exact Nat.le_refl _

/-- Witness for C3's amended claim: the watermark is seeded to 2 on opening
`exGame`, and an unknown message does not decrease the watermark. -/
theorem c3_witness :
    (mkGameCtrl listEngine exGame (some "alice")).state.lastMoveCount =
        (tokenize exGame.state.moves).length ∧
      exOpened.lastMoveCount ≤
        (handle listEngine exOpened (Msg.other "ping")).state.lastMoveCount :=
  ⟨(c3_watermark_seeded listEngine exGame (some "alice") [] (by decide)).1,
    (c3_watermark_seeded listEngine exGame (some "alice") [] (by decide)).2.2
      exOpened (Msg.other "ping")⟩

/-- Claim C4: the point of view is fixed when the controller is constructed
— black exactly when the black player's identity matches the session
identity — and no later message (full-state, incremental-state, or unknown)
changes it. -/
theorem c4_pov_fixed {Pos : Type} (e : RulesEngine Pos) (g : Game)
    (me : Option String) (s : GameCtrlState Pos) (m : Msg) :
    (mkGameCtrl e g me).state.pov =
        (if me = some g.black.id then Color.black else Color.white) ∧
      (handle e s m).state.pov = s.pov := by
  constructor
  · unfold mkGameCtrl
    dsimp only
    exact (onUpdate_frame e _).2.1
  · cases m with
    | gameFull g2 =>
      rw [handle_gameFull_state]
      exact (onUpdate_frame e _).2.1
    | gameState st =>
      rw [handle_gameState_state]
      exact (onUpdate_frame e _).2.1
    | other t => rfl

/-- Claim C5: submitting a move leaves the controller state (game record,
state slice, derived position, watermark, point of view) unchanged, issues
exactly one command to the remote endpoint, and its only other effect is
the cosmetic displayed-turn-color flip; resigning leaves the state
unchanged and issues exactly the one resignation command. -/
theorem c5_intents_frame {Pos : Type} (s : GameCtrlState Pos)
    (orig dest : String) :
    (userMove s orig dest).1 = s ∧
      (userMove s orig dest).2.filter isHttpPost =
        [Effect.httpPost
          ("/api/board/game/" ++ s.game.id ++ "/move/" ++ orig ++ dest)] ∧
      (userMove s orig dest).2.filter
          (fun ef => !(isHttpPost ef ||
            ef == Effect.setTurnColor s.pov.opposite)) = [] ∧
      (resign s).1 = s ∧
      (resign s).2 =
        [Effect.httpPost ("/api/board/game/" ++ s.game.id ++ "/resign")] := by
  refine ⟨rfl, ?_, ?_, rfl, rfl⟩
  · unfold userMove
    by_cases hg : s.ground <;> simp [hg, isHttpPost]
  · unfold userMove
    by_cases hg : s.ground <;> simp [hg, isHttpPost]

/-- Claim C6: a message of unknown kind is logged and everything else is
left untouched — the state is returned unchanged and no error is raised,
so processing such a message never crashes the engine. -/
theorem c6_unknown_ignored {Pos : Type} (e : RulesEngine Pos)
    (s : GameCtrlState Pos) (t : String) :
    handle e s (Msg.other t) =
      { state := s, effects := [Effect.logUnknown t], error := none } := rfl

/-- Counterexample for C7: `"!!!!"` is not a well-formed move token, yet the
display conversion returns `"!!-!!"`, not the empty string — so it is not
the case that every malformed input maps to the empty string. -/
theorem c7_counterexample :
    wellFormedUciToken "!!!!" = false ∧ uciToAlgebraic "!!!!" = "!!-!!" ∧
      ("!!-!!" : String) ≠ "" := by
  decide

/-- Claim C7 as amended: the display conversion is deterministic and total,
maps `"e2e4"` to `"e2-e4"`, `"e7e8q"` to `"e7-e8=Q"` and `""` to `""`, and
returns the empty string exactly for inputs shorter than four characters —
malformed tokens of length at least four are formatted like well-formed
ones rather than mapped to the empty string. -/
theorem c7_display_total (s : String) :
    uciToAlgebraic "e2e4" = "e2-e4" ∧ uciToAlgebraic "e7e8q" = "e7-e8=Q" ∧
      uciToAlgebraic "" = "" ∧ (uciToAlgebraic s = "" ↔ s.length < 4) := by
  refine ⟨by decide, by decide, by decide, ?_, ?_⟩
  · intro h
    by_contra h4
    exact uciToAlgebraic_ne_empty s (by omega) h
  · intro h4
    unfold uciToAlgebraic
    rw [if_pos h4]

/-- Claim C8: the side attributed to the notable-move notification is
determined solely by the parity of the moves list's length — odd length is
attributed to white, even to black, both in the engine's speech effect and
in `getLastMove` — independent of the game's initial position; in
particular, when black moves first the attributed side never matches the
side that actually played the move. -/
theorem c8_parity_attribution {Pos : Type} (e : RulesEngine Pos)
    (s : GameCtrlState Pos) (p0 : Pos) (ms : List String)
    (hfen : initialPosOf e s.game.initialFen = some p0)
    (hlt : s.lastMoveCount < (tokenize s.game.state.moves).length)
    (hms : ms ≠ []) :
    (onUpdate e s).effects.filter isSpeak =
        [Effect.speak
          (uciToAlgebraic ((tokenize s.game.state.moves).getLastD ""))
          (parityColor (tokenize s.game.state.moves).length)] ∧
      (getLastMove ms).map LastMoveInfo.color =
        some (parityColor ms.length) ∧
      ∀ k : Nat, parityColor k ≠ actualSideOfMove Color.black k := by
  refine ⟨?_, ?_, ?_⟩
  · rw [onUpdate_speak e s p0 hfen, if_pos hlt]
  · unfold getLastMove
    rw [if_neg (fun h0 => hms (List.length_eq_zero.mp h0))]
    rfl
  · intro k
    unfold parityColor actualSideOfMove Color.opposite
    rcases Nat.mod_two_eq_zero_or_one k with h | h <;> rw [h] <;> decide

/-- Witness for C8 at a one-move update from the fresh state: the speech
effect names white by parity, `getLastMove` agrees, and for a black-first
game the parity attribution of move 1 disagrees with the actual side. -/
theorem c8_witness :
    (onUpdate listEngine exFresh).effects.filter isSpeak =
        [Effect.speak
          (uciToAlgebraic ((tokenize exFresh.game.state.moves).getLastD ""))
          (parityColor (tokenize exFresh.game.state.moves).length)] ∧
      (getLastMove ["e2e4"]).map LastMoveInfo.color =
        some (parityColor 1) ∧
      parityColor 1 ≠ actualSideOfMove Color.black 1 := by
  have h := c8_parity_attribution listEngine exFresh [] ["e2e4"] (by decide)
    (by decide) (by decide)
  exact ⟨h.1, h.2.1, h.2.2 1⟩

/-- Claim C9: requesting the mode that is already current is a complete
no-op — same state (so no timer started or cleared) and no events (so no
callback invoked); requesting a different mode updates both the current
mode and the settings' mode and notifies every subscriber exactly once with
the updated settings. -/
theorem c9_setMode (s : TrainerState) (m : VisualizationMode) :
    (s.currentMode = m → setMode s m = (s, [])) ∧
      (s.currentMode ≠ m →
        (setMode s m).1.currentMode = m ∧
          (setMode s m).1.settings.mode = m ∧
          (setMode s m).2.filter isNotify =
            s.callbacks.map
              (fun cb => TrainerEvent.notify cb
                { s.settings with mode := m }) ∧
          ∀ cb : Nat,
            ((setMode s m).2.filter isNotify).count
                (TrainerEvent.notify cb { s.settings with mode := m }) =
              s.callbacks.count cb) := by
  constructor
  · intro h
    unfold setMode
    rw [if_neg (fun hne => hne h)]
  · intro h
    refine ⟨setMode_mode s m h, setMode_settings_mode s m h,
      setMode_notifications s m h, ?_⟩
    intro cb
    rw [setMode_notifications s m h, count_notify_map]

/-- Witness for C9 at the concrete trainer: requesting `standard` again is
a no-op, requesting `minimal` installs it and notifies callback 0 exactly
once. -/
theorem c9_witness :
    setMode exTrainer VisualizationMode.standard = (exTrainer, []) ∧
      (setMode exTrainer VisualizationMode.minimal).1.currentMode =
        VisualizationMode.minimal ∧
      ((setMode exTrainer VisualizationMode.minimal).2.filter
          isNotify).count
          (TrainerEvent.notify 0
            { exTrainer.settings with mode := VisualizationMode.minimal }) =
        exTrainer.callbacks.count 0 :=
  ⟨(c9_setMode exTrainer VisualizationMode.standard).1 rfl,
    ((c9_setMode exTrainer VisualizationMode.minimal).2 (by decide)).1,
    ((c9_setMode exTrainer VisualizationMode.minimal).2 (by decide)).2.2.2 0⟩

/-- Claim C10: one `cycleMode` call advances the current mode to its
immediate successor in the fixed order standard, minimal, checkers,
monochrome, invisible, memory, blindfold (wrapping from blindfold back to
standard), and seven consecutive `cycleMode` calls return the trainer to
its starting mode. -/
theorem c10_cycle_order (s : TrainerState) :
    (cycleState s).currentMode = modeSucc s.currentMode ∧
      (cycleState^[7] s).currentMode = s.currentMode := by
  obtain ⟨cm, st, cb, mt⟩ := s
  refine ⟨cycleState_mode _, ?_⟩
  rw [cycleState_iterate_mode]
  cases cm <;> rfl

end LichessApiDemo
